import Mathlib

/-!
Verification development for the Inquestor single-page application
(src/app/page.tsx).  The embedding models, faithfully to the source:

* the JSON values produced by the platform JSON.parse builtin, with a
  character-level parser;
* the fence-stripping performed on the model answer before parsing
  (the two regex replace calls on lines 158);
* the grounding-attribution extraction and result assembly of
  startResearch (lines 106-185);
* the downloadPdf guard and paginated layout (lines 187-244);
* the Typewriter tick loop (lines 56-82);
* the submit-button disabled condition and the Enter-key submission
  path of the App component (lines 281-298).

Machine strings are modelled as Lean String (a list of characters);
JS string truthiness (empty string is falsy) is written out explicitly
at each use site.
-/

namespace Inquestor

/-- JSON values as produced by the JSON.parse builtin.  Objects keep
field order; duplicate keys are resolved last-wins at parse time, as the
builtin does. -/
inductive Json where
  | null : Json
  | bool (b : Bool) : Json
  | num (q : ℚ) : Json
  | str (s : String) : Json
  | arr (elems : List Json) : Json
  | obj (fields : List (String × Json)) : Json

/-- Skip JSON insignificant whitespace (space, tab, line feed, carriage
return). -/
def skipWs : List Char → List Char
  | [] => []
  | c :: cs =>
    if c = ' ' ∨ c = '\t' ∨ c = '\n' ∨ c = '\r' then skipWs cs else c :: cs

/-- Value of one hexadecimal digit. -/
def hexVal (c : Char) : Option Nat :=
  if '0' ≤ c ∧ c ≤ '9' then some (c.toNat - '0'.toNat)
  else if 'a' ≤ c ∧ c ≤ 'f' then some (c.toNat - 'a'.toNat + 10)
  else if 'A' ≤ c ∧ c ≤ 'F' then some (c.toNat - 'A'.toNat + 10)
  else none

/-- Body of a JSON string literal, after the opening quote.  Returns the
decoded string and the input remaining after the closing quote. -/
def parseStringBody : Nat → List Char → List Char → Option (String × List Char)
  | 0, _, _ => none
  | _ + 1, _, [] => none
  | fuel + 1, acc, c :: cs =>
    if c = '\"' then some (String.mk acc.reverse, cs)
    else if c = '\\' then
      match cs with
      | [] => none
      | e :: cs2 =>
        if e = '\"' then parseStringBody fuel ('\"' :: acc) cs2
        else if e = '\\' then parseStringBody fuel ('\\' :: acc) cs2
        else if e = '/' then parseStringBody fuel ('/' :: acc) cs2
        else if e = 'b' then parseStringBody fuel ('\x08' :: acc) cs2
        else if e = 'f' then parseStringBody fuel ('\x0c' :: acc) cs2
        else if e = 'n' then parseStringBody fuel ('\n' :: acc) cs2
        else if e = 'r' then parseStringBody fuel ('\r' :: acc) cs2
        else if e = 't' then parseStringBody fuel ('\t' :: acc) cs2
        else if e = 'u' then
          match cs2 with
          | h1 :: h2 :: h3 :: h4 :: cs3 =>
            match hexVal h1, hexVal h2, hexVal h3, hexVal h4 with
            | some a, some b, some c2, some d =>
              parseStringBody fuel
                (Char.ofNat (((a * 16 + b) * 16 + c2) * 16 + d) :: acc) cs3
            | _, _, _, _ => none
          | _ => none
        else none
    else if c.toNat < 32 then none
    else parseStringBody fuel (c :: acc) cs

/-- Natural number denoted by a list of decimal digits. -/
def digitsToNat (ds : List Char) : Nat :=
  ds.foldl (fun n c => n * 10 + (c.toNat - '0'.toNat)) 0

/-- Optional fraction part of a JSON number: a dot must be followed by at
least one digit. -/
def parseFrac (cs : List Char) : Option (List Char × List Char) :=
  match cs with
  | '.' :: r =>
    let p := r.span Char.isDigit
    if p.1.isEmpty then none else some (p.1, p.2)
  | _ => some ([], cs)

/-- Signed exponent digits, after the e or E marker. -/
def parseExpSigned (cs : List Char) : Option (Int × List Char) :=
  let sp : Int × List Char :=
    match cs with
    | '+' :: r2 => (1, r2)
    | '-' :: r2 => (-1, r2)
    | _ => (1, cs)
  let p := sp.2.span Char.isDigit
  if p.1.isEmpty then none else some (sp.1 * (digitsToNat p.1 : Int), p.2)

/-- Optional exponent part of a JSON number. -/
def parseExp (cs : List Char) : Option (Int × List Char) :=
  match cs with
  | 'e' :: r => parseExpSigned r
  | 'E' :: r => parseExpSigned r
  | _ => some (0, cs)

/-- A JSON number token, valued as a rational. -/
def parseNumber (cs : List Char) : Option (Json × List Char) :=
  let sp : Bool × List Char :=
    match cs with
    | '-' :: r => (true, r)
    | _ => (false, cs)
  let ip := sp.2.span Char.isDigit
  if ip.1.isEmpty then none
  else if ip.1.head? = some '0' ∧ 1 < ip.1.length then none
  else
    match parseFrac ip.2 with
    | none => none
    | some (fds, cs3) =>
      match parseExp cs3 with
      | none => none
      | some (e, cs4) =>
        let mag : ℚ :=
          (digitsToNat ip.1 : ℚ) + (digitsToNat fds : ℚ) / (10 : ℚ) ^ fds.length
        some (Json.num ((if sp.1 then -mag else mag) * (10 : ℚ) ^ e), cs4)

/-- Insert a key into an object field list the way JS property assignment
does: replace the value in place when the key exists, append otherwise. -/
def objInsert (fields : List (String × Json)) (k : String) (v : Json) :
    List (String × Json) :=
  if fields.any (fun p => p.1 = k) then
    fields.map (fun p => if p.1 = k then (k, v) else p)
  else fields ++ [(k, v)]

/-- Collapse duplicate keys last-wins while keeping first-occurrence
order, as JSON.parse does for repeated keys. -/
def dedupeFields (fields : List (String × Json)) : List (String × Json) :=
  fields.foldl (fun acc p => objInsert acc p.1 p.2) []

mutual

/-- One JSON value, preceded by optional whitespace. -/
def parseValue : Nat → List Char → Option (Json × List Char)
  | 0, _ => none
  | fuel + 1, cs =>
    match skipWs cs with
    | 'n' :: 'u' :: 'l' :: 'l' :: rest => some (Json.null, rest)
    | 't' :: 'r' :: 'u' :: 'e' :: rest => some (Json.bool true, rest)
    | 'f' :: 'a' :: 'l' :: 's' :: 'e' :: rest => some (Json.bool false, rest)
    | '\"' :: rest =>
      match parseStringBody (rest.length + 1) [] rest with
      | some (s, rest2) => some (Json.str s, rest2)
      | none => none
    | '[' :: rest =>
      match skipWs rest with
      | ']' :: rest2 => some (Json.arr [], rest2)
      | rest2 =>
        match parseElems fuel rest2 with
        | some (xs, rest3) => some (Json.arr xs, rest3)
        | none => none
    | '\x7b' :: rest =>
      match skipWs rest with
      | '\x7d' :: rest2 => some (Json.obj [], rest2)
      | rest2 =>
        match parseMembers fuel rest2 with
        | some (fs, rest3) => some (Json.obj (dedupeFields fs), rest3)
        | none => none
    | cs1 => parseNumber cs1

/-- Comma-separated array elements up to the closing bracket. -/
def parseElems : Nat → List Char → Option (List Json × List Char)
  | 0, _ => none
  | fuel + 1, cs =>
    match parseValue fuel cs with
    | none => none
    | some (v, rest) =>
      match skipWs rest with
      | ',' :: rest2 =>
        match parseElems fuel rest2 with
        | some (xs, rest3) => some (v :: xs, rest3)
        | none => none
      | ']' :: rest2 => some ([v], rest2)
      | _ => none

/-- Comma-separated object members up to the closing brace. -/
def parseMembers : Nat → List Char → Option (List (String × Json) × List Char)
  | 0, _ => none
  | fuel + 1, cs =>
    match skipWs cs with
    | '\"' :: rest =>
      match parseStringBody (rest.length + 1) [] rest with
      | none => none
      | some (k, rest2) =>
        match skipWs rest2 with
        | ':' :: rest3 =>
          match parseValue fuel rest3 with
          | none => none
          | some (v, rest4) =>
            match skipWs rest4 with
            | ',' :: rest5 =>
              match parseMembers fuel rest5 with
              | some (fs, rest6) => some ((k, v) :: fs, rest6)
              | none => none
            | '\x7d' :: rest5 => some ([(k, v)], rest5)
            | _ => none
        | _ => none
    | _ => none

end

/-- Model of the JSON.parse builtin: parse one value and require that
only whitespace remains. -/
def Json.parse (s : String) : Option Json :=
  match parseValue (s.data.length + 1) s.data with
  | some (v, rest) => if (skipWs rest).isEmpty then some v else none
  | none => none

/-- The characters of the opening fence marker matched by the first
replace call on line 158 (three backticks then the json tag). -/
def fenceOpen : List Char := ['\x60', '\x60', '\x60', 'j', 's', 'o', 'n']

/-- The characters of the closing fence marker matched at end of input by
the second replace call on line 158 (three backticks). -/
def fenceClose : List Char := ['\x60', '\x60', '\x60']

/-- Drop one leading line feed if present: the optional newline consumed
greedily by the opening-fence pattern. -/
def dropOptNewline : List Char → List Char
  | '\n' :: r => r
  | r => r

/-- First replace call of line 158: remove the first (leftmost) occurrence
of the opening fence marker together with one optional newline after it. -/
def dropFirstFenceOpen : List Char → List Char
  | [] => []
  | c :: cs =>
    if fenceOpen.isPrefixOf (c :: cs) then dropOptNewline (cs.drop 6)
    else c :: dropFirstFenceOpen cs

/-- Second replace call of line 158: remove a closing fence marker when it
ends the string (the pattern is anchored at end of input). -/
def dropTrailingFence (cs : List Char) : List Char :=
  if fenceClose.isSuffixOf cs then cs.take (cs.length - 3) else cs

/-- Line 158: strip a possible fenced-code-block wrapper from the model
answer before parsing. -/
def stripFences (s : String) : String :=
  String.mk (dropTrailingFence (dropFirstFenceOpen s.data))

/-- A citation record (interface Source, lines 11-14). -/
structure Source where
  title : String
  uri : String
deriving DecidableEq

/-- The typed result record (interface ResearchResult, lines 16-20), used
by the PDF exporter. -/
structure ResearchResult where
  topic : String
  summary : String
  sources : List Source
deriving DecidableEq

/-- The web part of a grounding attribution (line 166), with both fields
optional. -/
structure AttributionWeb where
  title : Option String
  uri : Option String
deriving DecidableEq

/-- A grounding attribution (line 166), whose web record is optional. -/
structure Attribution where
  web : Option AttributionWeb
deriving DecidableEq

/-- The grounding metadata of a candidate: its attribution list is
optional (line 167 uses optional chaining on it). -/
structure GroundingMetadata where
  groundingAttributions : Option (List Attribution)
deriving DecidableEq

/-- One part of a candidate content; its text is optional (line 154). -/
structure ContentPart where
  text : Option String
deriving DecidableEq

/-- A candidate content; its part list is optional (line 154). -/
structure CandidateContent where
  parts : Option (List ContentPart)
deriving DecidableEq

/-- One model candidate (lines 148, 154, 165). -/
structure Candidate where
  content : Option CandidateContent
  groundingMetadata : Option GroundingMetadata
deriving DecidableEq

/-- The upstream HTTP response as startResearch reads it: transport
success flag and status (lines 143-144) and the parsed body candidate
list (line 148, optional). -/
structure ApiResponse where
  ok : Bool
  status : Nat
  candidates : Option (List Candidate)
deriving DecidableEq

/-- Line 154: the candidate answer text via optional chaining, defaulted
to the empty string. -/
def rawTextOf (cand : Candidate) : String :=
  (((cand.content.bind CandidateContent.parts).bind List.head?).bind
    ContentPart.text).getD ""

/-- Lines 168-171: map one attribution to a Source, defaulting missing
fields to the empty string. -/
def toSource (attr : Attribution) : Source :=
  { title := (attr.web.bind AttributionWeb.title).getD ""
    uri := (attr.web.bind AttributionWeb.uri).getD "" }

/-- Lines 165-172: citation extraction.  Maps each attribution to a
Source and keeps those whose uri and title are both truthy (non-empty);
a missing metadata or attribution list yields the empty list. -/
def extractSources (gm : Option GroundingMetadata) : List Source :=
  match gm.bind GroundingMetadata.groundingAttributions with
  | some attrs =>
    (attrs.map toSource).filter (fun s => s.uri != "" && s.title != "")
  | none => []

/-- JSON form of one Source record, field order as on lines 169-170. -/
def sourceJson (s : Source) : Json :=
  Json.obj [("title", Json.str s.title), ("uri", Json.str s.uri)]

/-- JSON form of the derived source list. -/
def sourcesJson (ss : List Source) : Json :=
  Json.arr (ss.map sourceJson)

/-- The own enumerable properties a JS spread reads from a value: object
fields, indexed characters of a string, indexed elements of an array,
nothing for primitives. -/
def jsOwnEnumerable : Json → List (String × Json)
  | Json.obj fields => fields
  | Json.str s => s.data.enum.map (fun p => (toString p.1, Json.str (String.mk [p.2])))
  | Json.arr xs => xs.enum.map (fun p => (toString p.1, p.2))
  | _ => []

/-- Line 174: the stored result object, built by spreading the parsed
content and then writing the sources key with the derived list. -/
def spreadWithSources (parsed : Json) (ss : List Source) : Json :=
  Json.obj (objInsert (jsOwnEnumerable parsed) "sources" (sourcesJson ss))

/-- Property lookup on a JSON object. -/
def objLookup (j : Json) (k : String) : Option Json :=
  match j with
  | Json.obj fields => (fields.find? (fun p => p.1 == k)).map Prod.snd
  | _ => none

/-- The view state slots of the App component relevant to the claims:
result, error and the loading flag (lines 87-89).  The stored result is
the raw object built on line 174. -/
structure ViewState where
  result : Option Json
  error : Option String
  loading : Bool

/-- Line 108. -/
def msgMissingApiKey : String := "Please provide an API key."

/-- Line 112. -/
def msgMissingQuery : String := "Please enter a topic to research."

/-- Line 144. -/
def msgHttp (status : Nat) : String :=
  "API call failed! Status: " ++ toString status

/-- Line 151. -/
def msgNoCandidate : String := "No response from the model."

/-- Line 162. -/
def msgMalformed : String := "The model returned a weird format. Try again."

/-- Line 191. -/
def msgPdfUnavailable : String :=
  "Can't download PDF yet. The PDF library might still be loading."

/-- The state after lines 116-118 have run: both result and error are
cleared and the loading flag is up, before the network call is issued. -/
def clearedBusy : ViewState := { result := none, error := none, loading := true }

/-- Lines 136-184: the state reached once the dispatched call settles,
starting from the cleared busy state.  Each failure is caught and stored
as an error message; success stores the spread object; the finally block
always lowers the loading flag. -/
def researchOutcome (resp : ApiResponse) : ViewState :=
  { (if !resp.ok then { clearedBusy with error := some (msgHttp resp.status) }
     else
       match resp.candidates.bind List.head? with
       | none => { clearedBusy with error := some msgNoCandidate }
       | some cand =>
         match Json.parse (stripFences (rawTextOf cand)) with
         | none => { clearedBusy with error := some msgMalformed }
         | some parsedContent =>
           { clearedBusy with
             result := some (spreadWithSources parsedContent
               (extractSources cand.groundingMetadata)) }) with
    loading := false }

/-- Lines 106-185: startResearch.  The guards on lines 107-114 test the
raw strings for JS truthiness (empty means falsy) and return before any
network activity; otherwise the call is dispatched.  The Bool of the
pair records whether the network call was issued. -/
def startResearch (apiKey query : String) (resp : ApiResponse)
    (s : ViewState) : ViewState × Bool :=
  if apiKey = "" then ({ s with error := some msgMissingApiKey }, false)
  else if query = "" then ({ s with error := some msgMissingQuery }, false)
  else (researchOutcome resp, true)

/-- JS whitespace as far as String.prototype.trim is concerned (the
characters that can occur in the inputs at hand). -/
def jsWhitespaceChar (c : Char) : Bool :=
  c == ' ' || c == '\t' || c == '\n' || c == '\r' || c == '\x0b' ||
    c == '\x0c' || c == '\u00A0'

/-- Model of String.prototype.trim. -/
def jsTrim (s : String) : String :=
  String.mk (((s.data.dropWhile jsWhitespaceChar).reverse.dropWhile
    jsWhitespaceChar).reverse)

/-- Line 297: the submit button disabled condition, which is the only
place the trimmed inputs are consulted. -/
def buttonDisabled (loading : Bool) (query apiKey : String) : Bool :=
  loading || jsTrim query == "" || jsTrim apiKey == ""

/-- Lines 281-286: the query textarea keydown handler.  A non-shift Enter
invokes startResearch directly, with no check of the button disabled
condition. -/
def handleQueryKeyDown (key : String) (shiftKey : Bool)
    (apiKey query : String) (resp : ApiResponse) (s : ViewState) :
    ViewState × Bool :=
  if key == "Enter" && !shiftKey then startResearch apiKey query resp s
  else (s, false)

/-- What downloadPdf writes into the document, abstracted from the
drawing library: the kind of each text placement. -/
inductive PdfItemKind where
  | titleText : PdfItemKind
  | summaryText : PdfItemKind
  | sourcesHeading : PdfItemKind
  | sourceTitle (t : String) : PdfItemKind
  | sourceLink (uri : String) : PdfItemKind
deriving DecidableEq

/-- One placed text item together with the vertical cursor position it
was written at. -/
structure PdfItem where
  kind : PdfItemKind
  y : ℚ
deriving DecidableEq

/-- The document under construction: finished pages, the current page,
and the vertical cursor yPosition. -/
structure PdfState where
  pages : List (List PdfItem)
  cur : List PdfItem
  y : ℚ

/-- The fixed margin of downloadPdf (line 199). -/
def pdfMargin : ℚ := 20

/-- The measurement context of downloadPdf: line counts produced by
splitTextToSize for a given wrap width, the height reported by
getTextDimensions, and the page dimensions of the document. -/
structure PdfConfig where
  splitCount : String → ℚ → Nat
  dimH : String → ℚ → ℚ
  pageWidth : ℚ
  pageHeight : ℚ

/-- Write one item on the current page at the current cursor. -/
def pdfPut (k : PdfItemKind) (st : PdfState) : PdfState :=
  { st with cur := st.cur ++ [{ kind := k, y := st.y }] }

/-- Advance the vertical cursor. -/
def pdfAdvance (d : ℚ) (st : PdfState) : PdfState :=
  { st with y := st.y + d }

/-- Lines 215 and 224: when the required height would cross the bottom
margin, add a page and reset the cursor to the top margin, before the
write proceeds. -/
def pdfBreakIfNeeded (need : ℚ) (cfg : PdfConfig) (st : PdfState) : PdfState :=
  if st.y + need > cfg.pageHeight - pdfMargin then
    { pages := st.pages ++ [st.cur], cur := [], y := pdfMargin }
  else st

/-- Lines 223-233: render one source entry (title then hyperlink), with
the page-break check evaluated once before the entry. -/
def pdfRenderSource (cfg : PdfConfig) (st : PdfState) (src : Source) :
    PdfState :=
  let st1 := pdfBreakIfNeeded 12 cfg st
  let st2 := pdfAdvance
    (cfg.dimH src.title (cfg.pageWidth - pdfMargin * 2) + 2)
    (pdfPut (PdfItemKind.sourceTitle src.title) st1)
  pdfAdvance 10 (pdfPut (PdfItemKind.sourceLink src.uri) st2)

/-- Line 200: the empty document with the cursor at the top margin. -/
def pdfStage0 : PdfState := { pages := [], cur := [], y := pdfMargin }

/-- Lines 202-206: the centered bold topic heading, with the cursor
advanced by the wrapped line count times ten plus spacing. -/
def pdfStage1 (cfg : PdfConfig) (res : ResearchResult) : PdfState :=
  pdfAdvance
    ((cfg.splitCount res.topic (cfg.pageWidth - pdfMargin * 2) : ℚ) * 10 + 10)
    (pdfPut PdfItemKind.titleText pdfStage0)

/-- Lines 208-212: the word-wrapped summary body, with the cursor
advanced by the wrapped line count times seven plus spacing. -/
def pdfStage2 (cfg : PdfConfig) (res : ResearchResult) : PdfState :=
  pdfAdvance
    ((cfg.splitCount res.summary (cfg.pageWidth - pdfMargin * 2) : ℚ) * 7 + 10)
    (pdfPut PdfItemKind.summaryText (pdfStage1 cfg res))

/-- Lines 214-234: the Sources section, emitted only for a non-empty
source list, with a break check before the heading and before each
entry. -/
def pdfStage3 (cfg : PdfConfig) (res : ResearchResult) : PdfState :=
  if res.sources.length > 0 then
    res.sources.foldl (pdfRenderSource cfg)
      (pdfAdvance 8 (pdfPut PdfItemKind.sourcesHeading
        (pdfBreakIfNeeded 10 cfg (pdfStage2 cfg res))))
  else pdfStage2 cfg res

/-- Lines 196-234: the layout pass of downloadPdf, returning the pages of
the finished document. -/
def renderPdf (cfg : PdfConfig) (res : ResearchResult) :
    List (List PdfItem) :=
  (pdfStage3 cfg res).pages ++ [(pdfStage3 cfg res).cur]

/-- Lines 187-244: downloadPdf at the state level.  When no result is
stored or the library global is undefined, the error slot receives the
unavailability message and nothing is rendered; otherwise the stored
object is viewed as a typed result and laid out.  The second component
is the rendered document, when one is produced. -/
def downloadPdf (jspdfLoaded : Bool) (cfg : PdfConfig)
    (typedView : Json → ResearchResult) (s : ViewState) :
    ViewState × Option (List (List PdfItem)) :=
  match s.result, jspdfLoaded with
  | some r, true => (s, some (renderPdf cfg (typedView r)))
  | _, _ => ({ s with error := some msgPdfUnavailable }, none)

/-- The Typewriter component state: the displayed string, the index of
the next character, and whether the interval has been cleared. -/
structure TypewriterState where
  displayedText : String
  i : Nat
  stopped : Bool
deriving DecidableEq

/-- Lines 57-62: the state when the effect starts, before any tick. -/
def typewriterInit : TypewriterState :=
  { displayedText := "", i := 0, stopped := false }

/-- JS String.prototype.charAt: the one-character string at an index, or
the empty string out of range. -/
def charAt (s : String) (i : Nat) : String :=
  match s.data.get? i with
  | some c => String.mk [c]
  | none => ""

/-- Lines 63-70: one interval tick.  While characters remain the next one
is appended and the index advances; otherwise the interval is cleared. -/
def typewriterTick (text : String) (st : TypewriterState) :
    TypewriterState :=
  if st.stopped then st
  else if st.i < text.length then
    { displayedText := st.displayedText ++ charAt text st.i,
      i := st.i + 1, stopped := false }
  else { st with stopped := true }

/-- The state after a number of interval ticks from the start. -/
def typewriterRun (text : String) : Nat → TypewriterState
  | 0 => typewriterInit
  | n + 1 => typewriterTick text (typewriterRun text n)

theorem string_length_eq_data (s : String) : s.length = s.data.length := rfl

theorem string_mk_append (a b : List Char) :
    String.mk a ++ String.mk b = String.mk (a ++ b) := rfl

theorem typewriterRun_take (text : String) (k : Nat)
    (hk : k ≤ text.data.length) :
    typewriterRun text k =
      { displayedText := String.mk (text.data.take k), i := k,
        stopped := false } := by
  induction k with
  | zero => rfl
  | succ k ih =>
    have hlt : k < text.data.length := hk
    have hlt' : k < text.length := hlt
    have step : typewriterRun text (k + 1) =
        typewriterTick text (typewriterRun text k) := rfl
    rw [step, ih (Nat.le_of_succ_le hk)]
    have hget : text.data.get? k = some text.data[k] := by
      simp [List.get?_eq_getElem?, hlt]
    have hchar : charAt text k = String.mk [text.data[k]] := by
      rw [charAt, hget]
    rw [typewriterTick]
    simp only [hlt', if_true, Bool.false_eq_true, if_false,
      reduceIte, hchar, string_mk_append]
    rw [List.take_succ, List.getElem?_eq_getElem hlt]
    rfl

theorem typewriterRun_done (text : String) (m : Nat)
    (hm : text.data.length < m) :
    typewriterRun text m =
      { displayedText := text, i := text.data.length, stopped := true } := by
  induction m with
  | zero => exact absurd hm (Nat.not_lt_zero _)
  | succ m ih =>
    have step : typewriterRun text (m + 1) =
        typewriterTick text (typewriterRun text m) := rfl
    rcases Nat.lt_succ_iff_lt_or_eq.mp hm with hlt | heq
    · rw [step, ih hlt, typewriterTick]
      simp
    · subst heq
      rw [step, typewriterRun_take text text.data.length le_rfl,
        typewriterTick]
      have hnot : ¬ text.data.length < text.length := by
        rw [string_length_eq_data]
        omega
      simp only [hnot, Bool.false_eq_true, if_false, reduceIte,
        List.take_length]

/-- Claim C1: for every non-empty text, the typewriter started on that
text produces a time-ordered sequence of displayed strings in which each
tick displays a strictly-growing prefix of the text (one character
appended per tick, no character skipped, never longer than the text), the
display eventually equals the text exactly, and ticking then stops. -/
theorem C1_typewriter (text : String) (k : Nat) (h : text ≠ "") :
    (k ≤ text.length →
      (typewriterRun text k).displayedText.data = text.data.take k) ∧
    (k < text.length →
      (typewriterRun text k).displayedText.data <+:
        (typewriterRun text (k + 1)).displayedText.data ∧
      (typewriterRun text (k + 1)).displayedText.length =
        (typewriterRun text k).displayedText.length + 1) ∧
    ((typewriterRun text k).displayedText.data <+: text.data ∧
      (typewriterRun text k).displayedText.length ≤ text.length) ∧
    (typewriterRun text text.length).displayedText = text ∧
    (text.length < k →
      typewriterRun text k =
        { displayedText := text, i := text.length, stopped := true } ∧
      typewriterTick text (typewriterRun text k) = typewriterRun text k) := by
  have hfull : (typewriterRun text text.length).displayedText = text := by
    rw [typewriterRun_take text text.length le_rfl]
    show String.mk (text.data.take text.data.length) = text
    rw [List.take_length]
  refine ⟨?_, ?_, ?_, hfull, ?_⟩
  · intro hk
    rw [typewriterRun_take text k hk]
  · intro hk
    rw [typewriterRun_take text k (Nat.le_of_lt hk),
      typewriterRun_take text (k + 1) hk]
    constructor
    · exact List.take_isPrefix_take.mpr (Or.inl (Nat.le_succ k))
    · simp only [string_length_eq_data, List.length_take]
      have : k < text.data.length := hk
      omega
  · by_cases hk : k ≤ text.length
    · rw [typewriterRun_take text k hk]
      constructor
      · exact List.take_prefix k text.data
      · simp only [string_length_eq_data, List.length_take]
        omega
    · rw [typewriterRun_done text k (by rw [← string_length_eq_data]; omega)]
      exact ⟨ List.prefix_refl _, le_rfl⟩
  · intro hk
    have hrun := typewriterRun_done text k hk
    refine ⟨hrun, ?_⟩
    rw [hrun, typewriterTick]
    simp

/-- Witness for C1 at a concrete text and tick count. -/
theorem C1_typewriter_witness :
    (typewriterRun "ab" 1).displayedText.data = ("ab" : String).data.take 1 :=
  (C1_typewriter "ab" 1 (by decide)).1 (by decide)

/-- An idle view state with nothing stored. -/
def viewIdle : ViewState := { result := none, error := none, loading := false }

/-- A response used to exercise the guard paths; its content is never
reached there. -/
def demoResp : ApiResponse := { ok := true, status := 200, candidates := none }

/-- A stored result object, as a previous successful call would leave it. -/
def demoStoredResult : Json :=
  Json.obj [("topic", Json.str "t"), ("summary", Json.str "s"),
    ("sources", Json.arr [])]

/-- The dispatched call always ends with the loading flag down and with
exactly one of result and error populated. -/
theorem researchOutcome_shape (resp : ApiResponse) :
    (researchOutcome resp).loading = false ∧
    (((researchOutcome resp).result.isSome = true ∧
        (researchOutcome resp).error = none) ∨
      ((researchOutcome resp).error.isSome = true ∧
        (researchOutcome resp).result = none)) := by
  rw [researchOutcome]
  by_cases hok : resp.ok
  · simp only [hok, Bool.not_true, Bool.false_eq_true, if_false]
    cases hc : resp.candidates.bind List.head? with
    | none => simp [hc, clearedBusy]
    | some cand =>
      cases hp : Json.parse (stripFences (rawTextOf cand)) with
      | none => simp [hc, hp, clearedBusy]
      | some v => simp [hc, hp, clearedBusy]
  · have hok' : resp.ok = false := by simpa using hok
    simp [hok', clearedBusy]

/-- Dispatch happens exactly when both guards pass. -/
theorem startResearch_dispatched (apiKey query : String)
    (resp : ApiResponse) (s : ViewState) (hk : apiKey ≠ "")
    (hq : query ≠ "") :
    startResearch apiKey query resp s = (researchOutcome resp, true) := by
  simp [startResearch, hk, hq]

/-- Claim C4: submitting with an empty credential or an empty topic makes
the research operation fail with a MissingInput-class error message
before any network call; no HTTP request is issued on such a
submission. -/
theorem C4_missing_input (apiKey query : String) (resp : ApiResponse)
    (s : ViewState) (h : apiKey = "" ∨ query = "") :
    (startResearch apiKey query resp s).2 = false ∧
    ((startResearch apiKey query resp s).1.error = some msgMissingApiKey ∨
      (startResearch apiKey query resp s).1.error = some msgMissingQuery) := by
  rcases h with h | h
  · simp [startResearch, h]
  · by_cases hk : apiKey = ""
    · simp [startResearch, hk]
    · simp [startResearch, hk, h]

/-- Witness for C4: an empty credential issues no network call. -/
theorem C4_missing_input_witness :
    (startResearch "" "topic" demoResp viewIdle).2 = false :=
  (C4_missing_input "" "topic" demoResp viewIdle (Or.inl rfl)).1

/-- Claim C9: whitespace-only (non-empty but blank after trimming) query
and credential pass the raw-string emptiness checks and a network call is
issued; the submit button disabled condition is the only place trimmed
values are used (it is true for such inputs), and the Enter-key path
invokes startResearch directly, bypassing that guard. -/
theorem C9_whitespace_inputs (apiKey query : String) (resp : ApiResponse)
    (s : ViewState) (hk : apiKey ≠ "") (hq : query ≠ "")
    (hkt : jsTrim apiKey = "") (hqt : jsTrim query = "") :
    handleQueryKeyDown "Enter" false apiKey query resp s =
      startResearch apiKey query resp s ∧
    (startResearch apiKey query resp s).2 = true ∧
    buttonDisabled false query apiKey = true := by
  refine ⟨rfl, ?_, ?_⟩
  · rw [startResearch_dispatched apiKey query resp s hk hq]
  · simp [buttonDisabled, hkt, hqt]

/-- Witness for C9 at whitespace-only inputs. -/
theorem C9_whitespace_inputs_witness :
    (startResearch " " " " demoResp viewIdle).2 = true :=
  (C9_whitespace_inputs " " " " demoResp viewIdle (by decide) (by decide)
    (by decide) (by decide)).2.1

/-- An HTTP non-success response. -/
def respFail : ApiResponse := { ok := false, status := 500, candidates := none }

/-- Claim C3 (amended): for a dispatched attempt (non-empty credential
and topic) error and result are mutually exclusive: the attempt clears
both before dispatch; a failed call ends with error set and result unset,
branch by branch: an HTTP non-success status ends with the HttpError
message carrying that status and result unset, a missing candidate with
the EmptyResponse message, an unparsable answer with the MalformedContent
message; and a successful call ends with result set and error cleared.  A
submission failing the input guards, however, sets error while leaving
any prior result in place, so after such an attempt an error and a stale
result can be displayed together. -/
theorem C3_error_result_state (apiKey query : String) (resp : ApiResponse)
    (s : ViewState) :
    ((apiKey ≠ "" ∧ query ≠ "") →
      (clearedBusy.result = none ∧ clearedBusy.error = none) ∧
      (((startResearch apiKey query resp s).1.result.isSome = true ∧
          (startResearch apiKey query resp s).1.error = none) ∨
        ((startResearch apiKey query resp s).1.error.isSome = true ∧
          (startResearch apiKey query resp s).1.result = none))) ∧
    ((apiKey ≠ "" ∧ query ≠ "" ∧ resp.ok = false) →
      (startResearch apiKey query resp s).1.error =
        some (msgHttp resp.status) ∧
      (startResearch apiKey query resp s).1.result = none) ∧
    ((apiKey ≠ "" ∧ query ≠ "" ∧ resp.ok = true) →
      (resp.candidates.bind List.head? = none →
        (startResearch apiKey query resp s).1.error = some msgNoCandidate ∧
        (startResearch apiKey query resp s).1.result = none) ∧
      (∀ cand, resp.candidates.bind List.head? = some cand →
        (Json.parse (stripFences (rawTextOf cand)) = none →
          (startResearch apiKey query resp s).1.error = some msgMalformed ∧
          (startResearch apiKey query resp s).1.result = none) ∧
        (∀ v, Json.parse (stripFences (rawTextOf cand)) = some v →
          (startResearch apiKey query resp s).1.result =
            some (spreadWithSources v
              (extractSources cand.groundingMetadata)) ∧
          (startResearch apiKey query resp s).1.error = none))) ∧
    ((apiKey = "" ∨ query = "") →
      (startResearch apiKey query resp s).1.result = s.result ∧
      ((startResearch apiKey query resp s).1.error = some msgMissingApiKey ∨
        (startResearch apiKey query resp s).1.error = some msgMissingQuery)) := by
  refine ⟨?_, ?_, ?_, ?_⟩
  · rintro ⟨hk, hq⟩
    refine ⟨⟨rfl, rfl⟩, ?_⟩
    rw [startResearch_dispatched apiKey query resp s hk hq]
    exact (researchOutcome_shape resp).2
  · rintro ⟨hk, hq, hok⟩
    rw [startResearch_dispatched apiKey query resp s hk hq, researchOutcome]
    simp [hok, clearedBusy]
  · rintro ⟨hk, hq, hok⟩
    rw [startResearch_dispatched apiKey query resp s hk hq, researchOutcome]
    simp only [hok, Bool.not_true, Bool.false_eq_true, if_false]
    constructor
    · intro hc
      simp [hc, clearedBusy]
    · intro cand hc
      constructor
      · intro hp
        simp [hc, hp, clearedBusy]
      · intro v hp
        simp [hc, hp, clearedBusy]
  · rintro (h | h)
    · simp [startResearch, h]
    · by_cases hk : apiKey = ""
      · simp [startResearch, hk]
      · simp [startResearch, hk, h]

/-- Witness for C3 (amended), on the HTTP non-success branch. -/
theorem C3_error_result_state_witness :
    (startResearch "k" "q" respFail viewIdle).1.error =
      some (msgHttp 500) ∧
    (startResearch "k" "q" respFail viewIdle).1.result = none :=
  (C3_error_result_state "k" "q" respFail viewIdle).2.1
    ⟨by decide, by decide, rfl⟩

/-- A state holding a previous result and no error. -/
def viewWithResult : ViewState :=
  { result := some demoStoredResult, error := none, loading := false }

/-- Counterexample to claim C3 as stated: starting from a state holding a
previous result, a submission with an empty credential ends with the
error set while the stale result is still set, so error and result
coexist. -/
theorem C3_counterexample :
    ((startResearch "" "q" demoResp viewWithResult).1.result.isSome = true) ∧
    ((startResearch "" "q" demoResp viewWithResult).1.error.isSome = true) :=
  ⟨rfl, rfl⟩

/-- Claim C2 (amended): on a dispatched call whose response is ok and
carries a candidate, a result is stored exactly when the answer text,
after fence-stripping, parses as JSON; a parse failure fails the whole
call with no result.  No check that the parsed value is an object
carrying the topic and summary keys is performed, so a parseable answer
lacking them still stores a (partially-populated) result object. -/
theorem C2_parse_gate (apiKey query : String) (resp : ApiResponse)
    (s : ViewState) (cand : Candidate) (hk : apiKey ≠ "") (hq : query ≠ "")
    (hok : resp.ok = true)
    (hcand : resp.candidates.bind List.head? = some cand) :
    (startResearch apiKey query resp s).1.result =
      (Json.parse (stripFences (rawTextOf cand))).map
        (fun v => spreadWithSources v
          (extractSources cand.groundingMetadata)) ∧
    ((startResearch apiKey query resp s).1.result = none ↔
      Json.parse (stripFences (rawTextOf cand)) = none) := by
  rw [startResearch_dispatched apiKey query resp s hk hq, researchOutcome]
  simp only [hok, Bool.not_true, Bool.false_eq_true, if_false, hcand]
  cases hp : Json.parse (stripFences (rawTextOf cand)) with
  | none => simp [hp, clearedBusy]
  | some v => simp [hp, clearedBusy]

/-- The candidate whose answer text is the two-character empty JSON
object. -/
def candEmptyObj : Candidate :=
  { content := some { parts := some [{ text := some "\x7b\x7d" }] },
    groundingMetadata := none }

/-- A response carrying only that candidate. -/
def respEmptyObj : ApiResponse :=
  { ok := true, status := 200, candidates := some [candEmptyObj] }

/-- Witness for C2 (amended) at the empty-object answer. -/
theorem C2_parse_gate_witness :
    (startResearch "k" "q" respEmptyObj viewIdle).1.result =
      (Json.parse (stripFences (rawTextOf candEmptyObj))).map
        (fun v => spreadWithSources v
          (extractSources candEmptyObj.groundingMetadata)) :=
  (C2_parse_gate "k" "q" respEmptyObj viewIdle candEmptyObj (by decide)
    (by decide) rfl rfl).1

/-- Counterexample to claim C2 as stated: the answer text parses as the
empty JSON object, which carries neither a topic nor a summary key, yet a
result is stored (holding only the derived sources) and the call does not
fail. -/
theorem C2_counterexample :
    (startResearch "k" "q" respEmptyObj viewIdle).1.result =
      some (Json.obj [("sources", Json.arr [])]) ∧
    ((startResearch "k" "q" respEmptyObj viewIdle).1.result.bind
      (fun j => objLookup j "topic")) = none ∧
    ((startResearch "k" "q" respEmptyObj viewIdle).1.result.bind
      (fun j => objLookup j "summary")) = none ∧
    (startResearch "k" "q" respEmptyObj viewIdle).1.error = none :=
  ⟨rfl, rfl, rfl, rfl⟩

/-- A fenced wrapper is stripped exactly: the leading marker with its
newline and the trailing marker are removed, leaving the inner text. -/
theorem stripFences_wrapped (inner : List Char) :
    stripFences (String.mk (fenceOpen ++ '\n' :: (inner ++ fenceClose))) =
      String.mk inner := by
  have hopen :
      dropFirstFenceOpen (fenceOpen ++ '\n' :: (inner ++ fenceClose)) =
        inner ++ fenceClose := by
    simp [fenceOpen, dropFirstFenceOpen, List.isPrefixOf, dropOptNewline]
  have hclose : dropTrailingFence (inner ++ fenceClose) = inner := by
    rw [dropTrailingFence]
    have hsuf : fenceClose.isSuffixOf (inner ++ fenceClose) = true := by
      simp [List.isSuffixOf, fenceClose, List.isPrefixOf]
    rw [if_pos hsuf]
    simp [fenceClose]
  rw [stripFences]
  show String.mk (dropTrailingFence (dropFirstFenceOpen
    (fenceOpen ++ '\n' :: (inner ++ fenceClose)))) = String.mk inner
  rw [hopen, hclose]

/-- Claim C5: the research client strips a possible fenced-code-block
wrapper from the answer text and then parses the remainder as JSON; the
call fails with the MalformedContent message exactly when that parse
fails, never producing partial success from a non-JSON remainder. -/
theorem C5_fence_strip_then_parse (apiKey query : String)
    (resp : ApiResponse) (s : ViewState) (cand : Candidate)
    (hk : apiKey ≠ "") (hq : query ≠ "") (hok : resp.ok = true)
    (hcand : resp.candidates.bind List.head? = some cand) :
    ((startResearch apiKey query resp s).1.error = some msgMalformed ↔
      Json.parse (stripFences (rawTextOf cand)) = none) ∧
    (∀ inner : List Char,
      stripFences (String.mk (fenceOpen ++ '\n' :: (inner ++ fenceClose))) =
        String.mk inner) := by
  refine ⟨?_, stripFences_wrapped⟩
  rw [startResearch_dispatched apiKey query resp s hk hq, researchOutcome]
  simp only [hok, Bool.not_true, Bool.false_eq_true, if_false, hcand]
  cases hp : Json.parse (stripFences (rawTextOf cand)) with
  | none => simp [hp, clearedBusy]
  | some v => simp [hp, clearedBusy, msgMalformed]

/-- The candidate whose answer text is not JSON even after stripping. -/
def candBadJson : Candidate :=
  { content := some { parts := some [{ text := some "not json" }] },
    groundingMetadata := none }

/-- A response carrying only that candidate. -/
def respBadJson : ApiResponse :=
  { ok := true, status := 200, candidates := some [candBadJson] }

/-- Witness for C5 at a non-JSON answer. -/
theorem C5_fence_strip_then_parse_witness :
    (startResearch "k" "q" respBadJson viewIdle).1.error =
      some msgMalformed :=
  ((C5_fence_strip_then_parse "k" "q" respBadJson viewIdle candBadJson
    (by decide) (by decide) rfl rfl).1).mpr rfl

/-- The complete attribution of the two-attribution example. -/
def attrComplete : Attribution :=
  { web := some { title := some "T1", uri := some "U1" } }

/-- The attribution lacking a uri in the two-attribution example. -/
def attrNoUri : Attribution :=
  { web := some { title := some "T2", uri := none } }

/-- Claim C6: citation extraction maps every grounding attribution to a
Source and discards exactly those whose title or uri is empty; every
retained Source has both fields non-empty; on the two-attribution example
(one complete, one lacking a uri) exactly the complete one is kept; and a
response with no grounding metadata yields the empty source list rather
than an error. -/
theorem C6_citation_extraction (attrs : List Attribution) :
    extractSources none = [] ∧
    extractSources (some { groundingAttributions := none }) = [] ∧
    extractSources (some { groundingAttributions := some attrs }) =
      (attrs.map toSource).filter
        (fun src => !(src.title == "") && !(src.uri == "")) ∧
    (∀ src ∈ extractSources (some { groundingAttributions := some attrs }),
      src.title ≠ "" ∧ src.uri ≠ "") ∧
    extractSources
      (some { groundingAttributions := some [attrComplete, attrNoUri] }) =
      [{ title := "T1", uri := "U1" }] := by
  have hfg : ∀ src : Source,
      (src.uri != "" && src.title != "") =
        (!(src.title == "") && !(src.uri == "")) := by
    intro src
    cases h1 : src.title == "" <;> cases h2 : src.uri == "" <;>
      simp [bne, h1, h2]
  refine ⟨rfl, rfl, ?_, ?_, rfl⟩
  · show (attrs.map toSource).filter _ = (attrs.map toSource).filter _
    exact List.filter_congr (fun src _ => hfg src)
  · intro src hsrc
    have hp := List.of_mem_filter hsrc
    have hp' := Bool.and_eq_true_iff.mp hp
    constructor
    · exact bne_iff_ne.mp hp'.2
    · exact bne_iff_ne.mp hp'.1

/-- Witness for C6 on the two-attribution example. -/
theorem C6_citation_extraction_witness :
    extractSources
      (some { groundingAttributions := some [attrComplete, attrNoUri] }) =
      [{ title := "T1", uri := "U1" }] :=
  (C6_citation_extraction []).2.2.2.2

/-- Claim C7 (amended): invoking the PDF export while the rendering
capability is not loaded produces no document, leaves the prior result
and loading state unchanged, and surfaces ExporterUnavailable by writing
the unavailability message into the error slot (overwriting whatever
error was there before, rather than leaving the error state
unchanged). -/
theorem C7_exporter_unavailable (cfg : PdfConfig)
    (typedView : Json → ResearchResult) (s : ViewState) :
    (downloadPdf false cfg typedView s).1.result = s.result ∧
    (downloadPdf false cfg typedView s).1.error = some msgPdfUnavailable ∧
    (downloadPdf false cfg typedView s).1.loading = s.loading ∧
    (downloadPdf false cfg typedView s).2 = none := by
  cases hr : s.result <;> simp [downloadPdf, hr]

/-- A concrete measurement context for the exporter. -/
def cfgDemo : PdfConfig :=
  { splitCount := fun _ _ => 1, dimH := fun _ _ => 5, pageWidth := 210,
    pageHeight := 297 }

/-- A concrete typed view of a stored result object. -/
def typedViewDemo : Json → ResearchResult :=
  fun _ => { topic := "", summary := "", sources := [] }

/-- Counterexample to claim C7 as stated: with the capability not loaded
and a prior state whose error is unset, export changes the error state to
the unavailability message, so the prior error state is not left
unchanged. -/
theorem C7_counterexample :
    (downloadPdf false cfgDemo typedViewDemo viewWithResult).1.error ≠
      viewWithResult.error := by
  simp [downloadPdf, viewWithResult]

/-- Elementwise effect of replacing an existing key: looking up that key
finds the new value. -/
theorem find_replace_self (l : List (String × Json)) (key : String)
    (v : Json) (h : l.any (fun p => p.1 = key) = true) :
    ((l.map (fun p => if p.1 = key then (key, v) else p)).find?
      (fun p => p.1 == key)) = some (key, v) := by
  induction l with
  | nil => simp at h
  | cons p l ih =>
    by_cases hp : p.1 = key
    · simp [List.find?, hp]
    · have h' : l.any (fun q => q.1 = key) = true := by
        simp [hp] at h
        simpa using h
      simp only [List.map_cons, if_neg hp]
      rw [List.find?]
      simp only [show (p.1 == key) = false from by simp [hp]]
      exact ih h'

/-- Elementwise effect of replacing an existing key: lookups of other
keys are unchanged. -/
theorem find_replace_other (l : List (String × Json)) (key k : String)
    (v : Json) (hk : k ≠ key) :
    ((l.map (fun p => if p.1 = key then (key, v) else p)).find?
      (fun p => p.1 == k)) = l.find? (fun p => p.1 == k) := by
  induction l with
  | nil => rfl
  | cons p l ih =>
    by_cases hp : p.1 = key
    · simp only [List.map_cons, if_pos hp]
      rw [List.find?, List.find?]
      simp only [show (key == k) = false from by simp [Ne.symm hk],
        show (p.1 == k) = false from by simp [hp, Ne.symm hk]]
      exact ih
    · simp only [List.map_cons, if_neg hp]
      rw [List.find?, List.find?]
      cases hm : (p.1 == k) with
      | true => rfl
      | false => exact ih

/-- Appending a fresh key: looking up that key finds the appended
value. -/
theorem find_append_self (l : List (String × Json)) (key : String)
    (v : Json) (h : l.any (fun p => p.1 = key) = false) :
    ((l ++ [(key, v)]).find? (fun p => p.1 == key)) = some (key, v) := by
  induction l with
  | nil => simp [List.find?]
  | cons p l ih =>
    have hp : ¬ p.1 = key := by
      intro hc
      simp [hc] at h
    have h' : l.any (fun q => q.1 = key) = false := by
      simp [hp] at h
      simpa using h
    rw [List.cons_append, List.find?]
    simp only [show (p.1 == key) = false from by simp [hp]]
    exact ih h'

/-- Appending a fresh key: lookups of other keys are unchanged. -/
theorem find_append_other (l : List (String × Json)) (key k : String)
    (v : Json) (hk : k ≠ key) :
    ((l ++ [(key, v)]).find? (fun p => p.1 == k)) =
      l.find? (fun p => p.1 == k) := by
  induction l with
  | nil =>
    simp [List.find?, show (key == k) = false from by simp [Ne.symm hk]]
  | cons p l ih =>
    rw [List.cons_append, List.find?, List.find?]
    cases hm : (p.1 == k) with
    | true => rfl
    | false => exact ih

/-- Claim C10: in the stored result object the sources key always holds
the grounding-derived filtered list, overriding any sources key of the
parsed object, while every other key of the parsed object is carried into
the stored object verbatim. -/
theorem C10_sources_override (fields : List (String × Json))
    (ss : List Source) (k : String) (hk : k ≠ "sources") :
    objLookup (spreadWithSources (Json.obj fields) ss) "sources" =
      some (sourcesJson ss) ∧
    objLookup (spreadWithSources (Json.obj fields) ss) k =
      objLookup (Json.obj fields) k := by
  constructor
  · show ((objInsert fields "sources" (sourcesJson ss)).find?
      (fun p => p.1 == "sources")).map Prod.snd = some (sourcesJson ss)
    rw [objInsert]
    cases h : fields.any (fun p => p.1 = "sources") with
    | true =>
      rw [if_pos (by simp [h]), find_replace_self fields "sources" _ h]
      rfl
    | false =>
      rw [if_neg (by simp [h]), find_append_self fields "sources" _ h]
      rfl
  · show ((objInsert fields "sources" (sourcesJson ss)).find?
      (fun p => p.1 == k)).map Prod.snd =
      (fields.find? (fun p => p.1 == k)).map Prod.snd
    rw [objInsert]
    cases h : fields.any (fun p => p.1 = "sources") with
    | true =>
      rw [if_pos (by simp [h]), find_replace_other fields "sources" k _ hk]
    | false =>
      rw [if_neg (by simp [h]), find_append_other fields "sources" k _ hk]

/-- Witness for C10 at a parsed object that itself carries a sources
key. -/
theorem C10_sources_override_witness :
    objLookup (spreadWithSources
      (Json.obj [("topic", Json.str "t"), ("sources", Json.str "bogus")])
      [{ title := "T", uri := "U" }]) "sources" =
      some (sourcesJson [{ title := "T", uri := "U" }]) :=
  (C10_sources_override [("topic", Json.str "t"),
    ("sources", Json.str "bogus")] [{ title := "T", uri := "U" }] "topic"
    (by decide)).1

/-- All items written to the document so far, in write order. -/
def pdfAllItems (st : PdfState) : List PdfItem := st.pages.flatten ++ st.cur

/-- The title a source-title item carries, if it is one. -/
def itemSourceTitle (it : PdfItem) : Option String :=
  match it.kind with
  | PdfItemKind.sourceTitle t => some t
  | _ => none

/-- The uri a source-link item carries, if it is one. -/
def itemSourceLink (it : PdfItem) : Option String :=
  match it.kind with
  | PdfItemKind.sourceLink u => some u
  | _ => none

/-- Whether an item is the Sources section heading. -/
def isSourcesHeading (it : PdfItem) : Bool :=
  match it.kind with
  | PdfItemKind.sourcesHeading => true
  | _ => false

theorem pdfAllItems_put (k : PdfItemKind) (st : PdfState) :
    pdfAllItems (pdfPut k st) =
      pdfAllItems st ++ [{ kind := k, y := st.y }] := by
  simp [pdfAllItems, pdfPut]

theorem pdfAllItems_advance (d : ℚ) (st : PdfState) :
    pdfAllItems (pdfAdvance d st) = pdfAllItems st := rfl

theorem pdfAllItems_break (need : ℚ) (cfg : PdfConfig) (st : PdfState) :
    pdfAllItems (pdfBreakIfNeeded need cfg st) = pdfAllItems st := by
  rw [pdfBreakIfNeeded]
  by_cases hb : st.y + need > cfg.pageHeight - pdfMargin
  · rw [if_pos hb]
    simp [pdfAllItems, List.flatten_append]
  · rw [if_neg hb]

/-- The page break performed before a write guarantees the write fits,
when a page can hold the required height at all. -/
theorem pdfBreakIfNeeded_le (need : ℚ) (cfg : PdfConfig) (st : PdfState)
    (h : pdfMargin + need ≤ cfg.pageHeight - pdfMargin) :
    (pdfBreakIfNeeded need cfg st).y + need ≤ cfg.pageHeight - pdfMargin := by
  rw [pdfBreakIfNeeded]
  by_cases hb : st.y + need > cfg.pageHeight - pdfMargin
  · rw [if_pos hb]
    exact h
  · rw [if_neg hb]
    linarith [not_lt.mp hb]

theorem pdfRenderSource_items (cfg : PdfConfig) (st : PdfState)
    (src : Source) :
    pdfAllItems (pdfRenderSource cfg st src) =
      pdfAllItems st ++
        [{ kind := PdfItemKind.sourceTitle src.title,
           y := (pdfBreakIfNeeded 12 cfg st).y },
         { kind := PdfItemKind.sourceLink src.uri,
           y := (pdfBreakIfNeeded 12 cfg st).y +
             (cfg.dimH src.title (cfg.pageWidth - pdfMargin * 2) + 2) }] := by
  rw [pdfRenderSource]
  rw [pdfAllItems_advance, pdfAllItems_put, pdfAllItems_advance,
    pdfAllItems_put, pdfAllItems_break]
  simp [pdfAdvance, pdfPut]

theorem pdfFold_titles (cfg : PdfConfig) (srcs : List Source)
    (st : PdfState) :
    (pdfAllItems (srcs.foldl (pdfRenderSource cfg) st)).filterMap
        itemSourceTitle =
      (pdfAllItems st).filterMap itemSourceTitle ++
        srcs.map Source.title := by
  induction srcs generalizing st with
  | nil => simp
  | cons src srcs ih =>
    rw [List.foldl_cons, ih, pdfRenderSource_items]
    simp [itemSourceTitle, List.filterMap_append]

theorem pdfFold_links (cfg : PdfConfig) (srcs : List Source)
    (st : PdfState) :
    (pdfAllItems (srcs.foldl (pdfRenderSource cfg) st)).filterMap
        itemSourceLink =
      (pdfAllItems st).filterMap itemSourceLink ++ srcs.map Source.uri := by
  induction srcs generalizing st with
  | nil => simp
  | cons src srcs ih =>
    rw [List.foldl_cons, ih, pdfRenderSource_items]
    simp [itemSourceLink, List.filterMap_append]

theorem pdfFold_headings (cfg : PdfConfig) (srcs : List Source)
    (st : PdfState) :
    (pdfAllItems (srcs.foldl (pdfRenderSource cfg) st)).filter
        isSourcesHeading =
      (pdfAllItems st).filter isSourcesHeading := by
  induction srcs generalizing st with
  | nil => rfl
  | cons src srcs ih =>
    rw [List.foldl_cons, ih, pdfRenderSource_items]
    simp [isSourcesHeading, List.filter_append]

/-- The page-break check was honoured for an item: a source entry was
placed only where its reserved height fits above the bottom margin, and
likewise the section heading. -/
def entryFits (cfg : PdfConfig) (it : PdfItem) : Prop :=
  (∀ t, it.kind = PdfItemKind.sourceTitle t →
    it.y + 12 ≤ cfg.pageHeight - pdfMargin) ∧
  (it.kind = PdfItemKind.sourcesHeading →
    it.y + 10 ≤ cfg.pageHeight - pdfMargin)

theorem pdfFold_fits (cfg : PdfConfig) (srcs : List Source) (st : PdfState)
    (h12 : pdfMargin + 12 ≤ cfg.pageHeight - pdfMargin)
    (hinv : ∀ it ∈ pdfAllItems st, entryFits cfg it) :
    ∀ it ∈ pdfAllItems (srcs.foldl (pdfRenderSource cfg) st),
      entryFits cfg it := by
  induction srcs generalizing st with
  | nil => exact hinv
  | cons src srcs ih =>
    rw [List.foldl_cons]
    refine ih (pdfRenderSource cfg st src) ?_
    intro it hit
    rw [pdfRenderSource_items] at hit
    rcases List.mem_append.mp hit with hold | hnew
    · exact hinv it hold
    · simp only [List.mem_cons, List.not_mem_nil, or_false] at hnew
      rcases hnew with h1 | h2
      · constructor
        · intro t ht
          rw [h1]
          exact pdfBreakIfNeeded_le 12 cfg st h12
        · intro hh
          rw [h1] at hh
          exact absurd hh (by simp)
      · constructor
        · intro t ht
          rw [h2] at ht
          exact absurd ht (by simp)
        · intro hh
          rw [h2] at hh
          exact absurd hh (by simp)

/-- The items written before the Sources section: the topic heading and
the summary body. -/
theorem pdfStage2_items (cfg : PdfConfig) (res : ResearchResult) :
    pdfAllItems (pdfStage2 cfg res) =
      [{ kind := PdfItemKind.titleText, y := pdfMargin },
       { kind := PdfItemKind.summaryText, y := (pdfStage1 cfg res).y }] := by
  rw [pdfStage2, pdfAllItems_advance, pdfAllItems_put, pdfStage1,
    pdfAllItems_advance, pdfAllItems_put]
  simp [pdfStage0, pdfAllItems, pdfAdvance, pdfPut, pdfMargin]

theorem renderPdf_join (cfg : PdfConfig) (res : ResearchResult) :
    (renderPdf cfg res).flatten = pdfAllItems (pdfStage3 cfg res) := by
  simp [renderPdf, pdfAllItems, List.flatten_append]

/-- Claim C8: PDF export with zero sources emits no Sources section; with
a non-empty source list the heading appears once and each source is
emitted exactly once in original list order (its title and its link); and
whenever a page can hold the reserved heights at all, the page-break
check performed before the heading and before each entry guarantees every
such item was placed above the bottom margin, never retroactively
adjusted. -/
theorem C8_pdf_layout (cfg : PdfConfig) (res : ResearchResult) :
    (res.sources = [] →
      (renderPdf cfg res).flatten.filter isSourcesHeading = []) ∧
    ((renderPdf cfg res).flatten.filterMap itemSourceTitle =
      res.sources.map Source.title) ∧
    ((renderPdf cfg res).flatten.filterMap itemSourceLink =
      res.sources.map Source.uri) ∧
    (res.sources ≠ [] →
      ((renderPdf cfg res).flatten.filter isSourcesHeading).length = 1) ∧
    ((52 : ℚ) ≤ cfg.pageHeight →
      ∀ it ∈ (renderPdf cfg res).flatten, entryFits cfg it) := by
  have hstage2 := pdfStage2_items cfg res
  by_cases hempty : res.sources = []
  · have hstage3 : pdfStage3 cfg res = pdfStage2 cfg res := by
      rw [pdfStage3, hempty]
      simp
    rw [renderPdf_join] at *
    refine ⟨fun _ => ?_, ?_, ?_, fun hne => absurd hempty hne, fun h52 => ?_⟩
    · rw [hstage3, hstage2]
      simp [isSourcesHeading]
    · rw [hstage3, hstage2, hempty]
      simp [itemSourceTitle]
    · rw [hstage3, hstage2, hempty]
      simp [itemSourceLink]
    · rw [hstage3, hstage2]
      intro it hit
      simp only [List.mem_cons, List.not_mem_nil, or_false] at hit
      rcases hit with h1 | h2
      · rw [h1]
        exact ⟨fun t ht => absurd ht (by simp), fun hh => absurd hh (by simp)⟩
      · rw [h2]
        exact ⟨fun t ht => absurd ht (by simp), fun hh => absurd hh (by simp)⟩
  · have hlen : res.sources.length > 0 := by
      cases hs : res.sources with
      | nil => exact absurd hs hempty
      | cons a l => simp [hs]
    have hstage3 : pdfStage3 cfg res =
        res.sources.foldl (pdfRenderSource cfg)
          (pdfAdvance 8 (pdfPut PdfItemKind.sourcesHeading
            (pdfBreakIfNeeded 10 cfg (pdfStage2 cfg res)))) := by
      rw [pdfStage3, if_pos hlen]
    have hpre : pdfAllItems
        (pdfAdvance 8 (pdfPut PdfItemKind.sourcesHeading
          (pdfBreakIfNeeded 10 cfg (pdfStage2 cfg res)))) =
        pdfAllItems (pdfStage2 cfg res) ++
          [{ kind := PdfItemKind.sourcesHeading,
             y := (pdfBreakIfNeeded 10 cfg (pdfStage2 cfg res)).y }] := by
      rw [pdfAllItems_advance, pdfAllItems_put, pdfAllItems_break]
    rw [renderPdf_join, hstage3]
    refine ⟨fun hc => absurd hc hempty, ?_, ?_, fun _ => ?_, fun h52 => ?_⟩
    · rw [pdfFold_titles, hpre, hstage2]
      simp [itemSourceTitle, List.filterMap_append]
    · rw [pdfFold_links, hpre, hstage2]
      simp [itemSourceLink, List.filterMap_append]
    · rw [pdfFold_headings, hpre, hstage2]
      simp [isSourcesHeading, List.filter_append]
    · have hm : pdfMargin + 12 ≤ cfg.pageHeight - pdfMargin := by
        rw [pdfMargin]
        linarith

      refine pdfFold_fits cfg res.sources _ hm ?_
      rw [hpre, hstage2]
      intro it hit
      simp only [List.mem_append, List.mem_cons, List.not_mem_nil, or_false]
        at hit
      rcases hit with (h1 | h2) | h3
      · rw [h1]
        exact ⟨fun t ht => absurd ht (by simp), fun hh => absurd hh (by simp)⟩
      · rw [h2]
        exact ⟨fun t ht => absurd ht (by simp), fun hh => absurd hh (by simp)⟩
      · rw [h3]
        refine ⟨fun t ht => absurd ht (by simp), fun _ => ?_⟩
        have hm10 : pdfMargin + 10 ≤ cfg.pageHeight - pdfMargin := by
          rw [pdfMargin]
          linarith
        exact pdfBreakIfNeeded_le 10 cfg (pdfStage2 cfg res) hm10

/-- A concrete result with two sources. -/
def resDemo : ResearchResult :=
  { topic := "T", summary := "S",
    sources := [{ title := "A", uri := "ua" }, { title := "B", uri := "ub" }] }

/-- Witness for C8: both source titles are emitted exactly once, in list
order. -/
theorem C8_pdf_layout_witness :
    (renderPdf cfgDemo resDemo).flatten.filterMap itemSourceTitle =
      resDemo.sources.map Source.title :=
  (C8_pdf_layout cfgDemo resDemo).2.1

end Inquestor
